import Mathlib

/-!
Verification development for the route-template compiler of
`src/router/src/route.rs` (dioxus-router-experiment).

The Rust code is shallowly embedded: Rust strings become lists of characters
(`Str`), `syn` values become plain structures carrying only the data the code
inspects, fallible functions return `Except SynError`, and the token streams
emitted by the code generator are modelled by their syntactic content together
with explicit runtime-semantics functions for the emitted statements.
-/

namespace DioxusRouter

/-- Decidable equality for `Except`, so that concrete runs of the embedded
functions can be checked by `decide`. -/
instance exceptDecEq {ε α : Type} [DecidableEq ε] [DecidableEq α] : DecidableEq (Except ε α) :=
  fun x y =>
    match x, y with
    | .ok a, .ok b =>
      if h : a = b then .isTrue (by rw [h]) else .isFalse (by intro hc; cases hc; exact h rfl)
    | .error a, .error b =>
      if h : a = b then .isTrue (by rw [h]) else .isFalse (by intro hc; cases hc; exact h rfl)
    | .ok _, .error _ => .isFalse (by intro hc; cases hc)
    | .error _, .ok _ => .isFalse (by intro hc; cases hc)

/-- Rust strings are modelled as lists of characters. Every byte index that
`route.rs` slices at falls on a single-byte character (the bytes at stake are
always parentheses or dots), so character indexing is faithful to the byte
indexing of the Rust source. -/
abbrev Str := List Char

/-- The single-quote character that the error messages of `route.rs` wrap
names in. -/
def sq : Char := Char.ofNat 39

/-- Model of Rust `str::split('/')`: splitting an empty string yields one
empty piece, and every separator occurrence starts a new piece. -/
def splitOnChar (c : Char) : Str → List Str
  | [] => [[]]
  | x :: xs =>
    if x = c then
      [] :: splitOnChar c xs
    else
      match splitOnChar c xs with
      | [] => [[x]]
      | h :: t => (x :: h) :: t

/-- A field of a Rust enum variant (`syn::Field`): tuple fields have no ident;
the declared type is kept as its source text. -/
structure Field where
  ident : Option Str
  ty : Str
deriving DecidableEq

/-- A Rust enum variant (`syn::Variant`): its name and its list of fields. -/
structure Variant where
  ident : Str
  fields : List Field
deriving DecidableEq

/-- A `syn::Error`; only the message matters to this development (the spans
attached by `syn::Error::new_spanned` are dropped). -/
structure SynError where
  message : Str
deriving DecidableEq

/-- `RouteSegment` from `route.rs`: a static literal, a dynamic `(name)`
segment, or a catch-all `(...name)` segment; the two named forms carry the
bound name and the resolved field type. -/
inductive RouteSegment where
  | Static : Str → RouteSegment
  | Dynamic : Str → Str → RouteSegment
  | CatchAll : Str → Str → RouteSegment
deriving DecidableEq

/-- The test `segment.starts_with('(') && segment.ends_with(')')` from
`parse_route_segments`. -/
def isParenToken (segment : Str) : Bool :=
  segment.head? == some '(' && segment.getLast? == some ')'

/-- The test `segment.starts_with("(...")` from `parse_route_segments`. -/
def isSpreadToken (segment : Str) : Bool :=
  "(...".data.isPrefixOf segment

/-- The name extracted from a parenthesised token by `parse_route_segments`:
`segment[3..segment.len() - 1]` for a spread token and
`segment[1..segment.len() - 1]` otherwise, exactly as the Rust slices read. -/
def boundName (segment : Str) : Str :=
  if isSpreadToken segment then
    (segment.drop 3).take (segment.length - 1 - 3)
  else
    (segment.drop 1).take (segment.length - 1 - 1)

/-- The field lookup
`varient.fields.iter().find(|field| ... field_ident.to_string() == ident ...)`. -/
def findField (fields : List Field) (ident : Str) : Option Field :=
  fields.find? fun field =>
    match field.ident with
    | some fieldIdent => fieldIdent == ident
    | none => false

/-- Message of the error raised when a route does not start with a slash
(`"Routes should start with /. Error found in the route '{}'"`). -/
def routeStartMessage (route : Str) : Str :=
  "Routes should start with /. Error found in the route ".data ++ [sq] ++ route ++ [sq]

/-- Message of the error raised when no field matches a bound name
(`"Could not find a field with the name '{}' in the variant '{}'"`). -/
def fieldNotFoundMessage (ident : Str) (variantIdent : Str) : Str :=
  "Could not find a field with the name ".data ++ [sq] ++ ident ++ [sq] ++
    " in the variant ".data ++ [sq] ++ variantIdent ++ [sq]

/-- Message of the error raised when a catch-all segment is not last. -/
def catchAllNotLastMessage : Str :=
  "Catch-all route segments must be the last segment in a route. The route segments after the catch-all segment will never be matched.".data

/-- The `while let Some(segment) = iterator.next()` loop of
`parse_route_segments`, acting on the split pieces that follow the leading
empty piece. An error return discards everything accumulated so far, exactly
as the Rust `return Err(...)` does; after a catch-all segment the Rust code
consumes one more iterator element to decide between failure and `break`,
which is the `match rest` below. `Ident::new` is modelled as the identity on
the looked-up name (it is only reached when a declared field spelled that
name). -/
def parseSegmentsLoop (varient : Variant) : List Str → Except SynError (List RouteSegment)
  | [] => .ok []
  | segment :: rest =>
    if isParenToken segment then
      let spread := isSpreadToken segment
      let ident := boundName segment
      match findField varient.fields ident with
      | none => .error ⟨fieldNotFoundMessage ident varient.ident⟩
      | some field =>
        if spread then
          match rest with
          | _ :: _ => .error ⟨catchAllNotLastMessage⟩
          | [] => .ok [RouteSegment.CatchAll ident field.ty]
        else
          match parseSegmentsLoop varient rest with
          | .ok segs => .ok (RouteSegment.Dynamic ident field.ty :: segs)
          | .error e => .error e
    else
      match parseSegmentsLoop varient rest with
      | .ok segs => .ok (RouteSegment.Static segment :: segs)
      | .error e => .error e

/-- `parse_route_segments` from `route.rs`: split the route on `/`, require
the first piece to be empty (`first != Some("")` fails), then run the segment
loop on the remaining pieces. -/
def parse_route_segments (varient : Variant) (route : Str) : Except SynError (List RouteSegment) :=
  match splitOnChar '/' route with
  | [] => .error ⟨routeStartMessage route⟩
  | first :: rest =>
    if first = [] then
      parseSegmentsLoop varient rest
    else
      .error ⟨routeStartMessage route⟩

/-- The `Route` struct of `route.rs`. -/
structure Route where
  route_name : Str
  route : Str
  route_segments : List RouteSegment
deriving DecidableEq

/-- `RouteSegment::name`. -/
def RouteSegment.name : RouteSegment → Option Str
  | .Static _ => none
  | .Dynamic ident _ => some ident
  | .CatchAll ident _ => some ident

/-- `static_segment_idx` from `route.rs`:
`format_ident!("StaticSegment{}ParseError", idx)`. -/
def static_segment_idx (idx : Nat) : Str :=
  "StaticSegment".data ++ (Nat.repr idx).data ++ "ParseError".data

/-- `RouteSegment::error_name`: index-based for static segments, field-name
based (`{}ParseError`) for dynamic and catch-all segments. -/
def RouteSegment.error_name (seg : RouteSegment) (idx : Nat) : Str :=
  match seg with
  | .Static _ => static_segment_idx idx
  | .Dynamic ident _ => ident ++ "ParseError".data
  | .CatchAll ident _ => ident ++ "ParseError".data

/-- `Route::error_ident`: `format_ident!("{}ParseError", self.route_name)`. -/
def Route.error_ident (r : Route) : Str :=
  r.route_name ++ "ParseError".data

/-- Payload carried by one case of the generated per-route error enum. -/
inductive PayloadKind where
  | noPayload
  | fromStrErrOf (ty : Str)
  | stringPayload
deriving DecidableEq

/-- One case of the generated per-route error enum: its name and payload. -/
structure ErrorVariantSpec where
  name : Str
  payload : PayloadKind
deriving DecidableEq

/-- Runtime text produced by the generated display arm for a failed static
segment: `write!(f, "Static segment '{}' did not match", #index)` where
`#index` is the static literal. -/
def staticDisplayMessage (lit : Str) : Str :=
  "Static segment ".data ++ [sq] ++ lit ++ [sq] ++ " did not match".data

/-- Runtime text produced by the generated display arm for a failed dynamic
segment (`"Dynamic segment '({}:{})' did not match: {}"`). -/
def dynamicDisplayMessage (ident ty err : Str) : Str :=
  "Dynamic segment ".data ++ [sq] ++ "(".data ++ ident ++ ":".data ++ ty ++ ")".data ++ [sq] ++
    " did not match: ".data ++ err

/-- Runtime text produced by the generated display arm for a failed catch-all
segment (`"Catch-all segment '({}:{})' did not match: {}"`). -/
def catchAllDisplayMessage (ident ty err : Str) : Str :=
  "Catch-all segment ".data ++ [sq] ++ "(".data ++ ident ++ ":".data ++ ty ++ ")".data ++ [sq] ++
    " did not match: ".data ++ err

/-- Runtime text produced by the generated display arm for the
`ExtraSegments` case (`"Found additional trailing segments: {segments}"`). -/
def extraSegmentsDisplayMessage (segments : Str) : Str :=
  "Found additional trailing segments: ".data ++ segments

/-- The enum case that `Route::error_type` pushes for the segment at index
`i`: payload-free for a static segment, carrying
`<#ty as std::str::FromStr>::Err` for dynamic and catch-all segments. -/
def errorVariantFor (seg : RouteSegment) (i : Nat) : ErrorVariantSpec :=
  match seg with
  | .Static _ => ⟨seg.error_name i, .noPayload⟩
  | .Dynamic _ ty => ⟨seg.error_name i, .fromStrErrOf ty⟩
  | .CatchAll _ ty => ⟨seg.error_name i, .fromStrErrOf ty⟩

/-- The runtime meaning of the display arm that `Route::error_type` pushes
for one segment, as a function of the nested error text (unused for a static
segment). -/
def displayArmFor (seg : RouteSegment) : Str → Str :=
  match seg with
  | .Static lit => fun _ => staticDisplayMessage lit
  | .Dynamic ident ty => fun err => dynamicDisplayMessage ident ty err
  | .CatchAll ident ty => fun err => catchAllDisplayMessage ident ty err

/-- The generated per-route error enum, by its syntactic content: the enum
name, the ordered case list (`ExtraSegments(String)` first, as in the emitted
`quote!` block), and the runtime meaning of each per-segment display arm plus
the `ExtraSegments` display arm. -/
structure GeneratedErrorEnum where
  name : Str
  variants : List ErrorVariantSpec
  display : List (Str → Str)
  extraDisplay : Str → Str

/-- `Route::error_type`: one `ExtraSegments(String)` case followed by one case
per segment, produced by the `for (i, segment) in ... enumerate()` loop. -/
def Route.error_type (r : Route) : GeneratedErrorEnum :=
  ⟨r.error_ident,
   ⟨"ExtraSegments".data, .stringPayload⟩ :: (r.route_segments.enum.map fun p => errorVariantFor p.2 p.1),
   r.route_segments.map displayArmFor,
   extraSegmentsDisplayMessage⟩

/-- Syntactic content of the `let parsed = ...;` statement emitted by
`RouteSegment::try_parse` for one segment: the enum/variant idents it was
called with, the inner error-case name, and the literal (static case) or the
spliced type (dynamic case). -/
inductive GeneratedLetParsed where
  | staticCheck (lit een eev ipe caseName : Str)
  | dynamicParse (ty een eev ipe caseName : Str)
deriving DecidableEq

/-- `RouteSegment::try_parse` from `route.rs`. For a static or dynamic
segment it returns the emitted statement; for a catch-all segment the Rust
body is `todo!()`, a panic, modelled as `none`. -/
def RouteSegment.try_parse (seg : RouteSegment) (idx : Nat)
    (error_enum_name error_enum_varient inner_parse_enum : Str) : Option GeneratedLetParsed :=
  match seg with
  | .Static lit =>
      some (.staticCheck lit error_enum_name error_enum_varient inner_parse_enum (seg.error_name idx))
  | .Dynamic _ ty =>
      some (.dynamicParse ty error_enum_name error_enum_varient inner_parse_enum (seg.error_name idx))
  | .CatchAll _ _ => none

/-- A runtime value of the generated inner per-route error enum: either a
payload-free case or a case carrying a nested parse error of type `ε`. -/
inductive InnerErrorValue (ε : Type) where
  | unitCase (innerEnum caseName : Str)
  | payloadCase (innerEnum caseName : Str) (err : ε)
deriving DecidableEq

/-- A runtime value `#error_enum_name::#error_enum_varient(inner)` as built by
the emitted statements. -/
structure OuterErrorValue (ε : Type) where
  enumName : Str
  variantName : Str
  inner : InnerErrorValue ε
deriving DecidableEq

/-- Runtime meaning of the statement emitted for a static segment:
`let parsed = if segment == #segment { Ok(()) } else { Err(...) };`. -/
def runStaticCheck (ε : Type) (lit een eev ipe caseName segment : Str) :
    Except (OuterErrorValue ε) Unit :=
  if segment = lit then
    .ok ()
  else
    .error ⟨een, eev, .unitCase ipe caseName⟩

/-- Runtime meaning of the statement emitted for a dynamic segment:
`let parsed = <#ty as std::str::FromStr>::from_str(segment).map_err(...);`,
generic over the bound type through its `from_str` capability. -/
def runDynamicParse {ε α : Type} (from_str : Str → Except ε α)
    (een eev ipe caseName segment : Str) : Except (OuterErrorValue ε) α :=
  match from_str segment with
  | .ok v => .ok v
  | .error e => .error ⟨een, eev, .payloadCase ipe caseName e⟩

/-- Default segment used with `List.getD`. -/
def dummySegment : RouteSegment := .Static []

/-- Default error-enum case used with `List.getD`. -/
def dummyVariantSpec : ErrorVariantSpec := ⟨[], .noPayload⟩

/-- Default display arm used with `List.getD`. -/
def dummyDisplay : Str → Str := fun _ => []

/-- Variant `BlogPost { rest: String }`, used to exercise catch-all routes. -/
def vRest : Variant := ⟨"BlogPost".data, [⟨some "rest".data, "String".data⟩]⟩

/-- Variant `Home {}`, with no fields. -/
def vEmpty : Variant := ⟨"Home".data, []⟩

/-- Variant `Blog { id: u32 }`. -/
def vBlog : Variant := ⟨"Blog".data, [⟨some "id".data, "u32".data⟩]⟩

/-- Route `/post/(id)` on a variant named `Mix`. -/
def rMix : Route :=
  ⟨"Mix".data, "/post/(id)".data,
   [.Static "post".data, .Dynamic "id".data "u32".data]⟩

/-- Route `/a/a` with two identical static segments at different indices. -/
def rTwoStatic : Route :=
  ⟨"W".data, "/a/a".data, [.Static "a".data, .Static "a".data]⟩

/-- Route `/(id)/(rest)` with two distinct dynamic segments. -/
def rTwoDyn : Route :=
  ⟨"Pair".data, "/(id)/(rest)".data,
   [.Dynamic "id".data "u32".data, .Dynamic "rest".data "String".data]⟩

/-- A concrete `from_str` capability in the style of `u32::from_str`, used to
exercise the dynamic-segment matcher at a specific input. -/
def parseU32ish : Str → Except Str Nat :=
  fun s => if s = "5".data then .ok 5 else .error "invalid digit found in string".data

/-- Decimal value of one digit character, used to invert `Nat.digitChar`. -/
def digitVal (c : Char) : Nat := c.toNat - 48

/-- Decimal value of a digit string; left inverse of `Nat.toDigits 10`, used
to prove `Nat.repr` injective. -/
def digitsVal (l : List Char) : Nat :=
  l.foldl (fun a c => 10 * a + digitVal c) 0

theorem toDigitsCore_append10 :
    ∀ (fuel n : Nat) (ds : List Char), n < fuel →
      Nat.toDigitsCore 10 fuel n ds = Nat.toDigitsCore 10 fuel n [] ++ ds := by
  intro fuel
  induction fuel with
  | zero => intro n ds h; exact absurd h (Nat.not_lt_zero n)
  | succ f ih =>
    intro n ds hn
    simp only [Nat.toDigitsCore]
    by_cases h10 : n / 10 = 0
    · simp [h10]
    · rw [if_neg h10, if_neg h10]
      have hpos : 0 < n := by
        rcases Nat.eq_zero_or_pos n with h0 | h0
        · exact absurd (by simp [h0]) h10
        · exact h0
      have hlt : n / 10 < f := by
        have h1 : n / 10 < n := Nat.div_lt_self hpos (by decide)
        omega
      rw [ih (n / 10) (Nat.digitChar (n % 10) :: ds) hlt,
        ih (n / 10) [Nat.digitChar (n % 10)] hlt]
      simp

theorem digitVal_digitChar (k : Nat) (hk : k < 10) : digitVal (Nat.digitChar k) = k := by
  interval_cases k <;> rfl

theorem digitsVal_toDigitsCore10 :
    ∀ (fuel n : Nat), n < fuel → digitsVal (Nat.toDigitsCore 10 fuel n []) = n := by
  intro fuel
  induction fuel with
  | zero => intro n h; exact absurd h (Nat.not_lt_zero n)
  | succ f ih =>
    intro n hn
    simp only [Nat.toDigitsCore]
    by_cases h10 : n / 10 = 0
    · rw [if_pos h10]
      have hdm := Nat.div_add_mod n 10
      rw [h10, Nat.mul_zero, Nat.zero_add] at hdm
      have h9 : n % 10 < 10 := Nat.mod_lt n (by decide)
      simp only [digitsVal, List.foldl, Nat.mul_zero, Nat.zero_add]
      rw [digitVal_digitChar (n % 10) h9, hdm]
    · rw [if_neg h10]
      have hpos : 0 < n := by
        rcases Nat.eq_zero_or_pos n with h0 | h0
        · exact absurd (by simp [h0]) h10
        · exact h0
      have hlt : n / 10 < f := by
        have h1 : n / 10 < n := Nat.div_lt_self hpos (by decide)
        omega
      rw [toDigitsCore_append10 f (n / 10) [Nat.digitChar (n % 10)] hlt]
      simp only [digitsVal, List.foldl_append, List.foldl]
      have hv : List.foldl (fun a c => 10 * a + digitVal c) 0 (Nat.toDigitsCore 10 f (n / 10) []) = n / 10 :=
        ih (n / 10) hlt
      rw [hv, digitVal_digitChar (n % 10) (Nat.mod_lt n (by decide))]
      exact Nat.div_add_mod n 10

theorem natRepr_inj {m n : Nat} (h : Nat.repr m = Nat.repr n) : m = n := by
  have hd : Nat.toDigitsCore 10 (m + 1) m [] = Nat.toDigitsCore 10 (n + 1) n [] :=
    congrArg String.data h
  have h1 := digitsVal_toDigitsCore10 (m + 1) m (Nat.lt_succ_self m)
  have h2 := digitsVal_toDigitsCore10 (n + 1) n (Nat.lt_succ_self n)
  rw [← h1, ← h2, hd]

theorem static_segment_idx_inj {i j : Nat} (h : static_segment_idx i = static_segment_idx j) :
    i = j := by
  unfold static_segment_idx at h
  have h1 := List.append_cancel_right h
  have h2 := List.append_cancel_left h1
  exact natRepr_inj (String.ext h2)

theorem getD_map_of_lt {α β : Type} (f : α → β) (l : List α) (i : Nat) (hi : i < l.length)
    (d : β) (da : α) : (l.map f).getD i d = f (l.getD i da) := by
  rw [List.getD_eq_getElem (l.map f) d (by simpa using hi), List.getElem_map,
    List.getD_eq_getElem l da hi]

theorem getD_enum_map_of_lt {α β : Type} (f : Nat × α → β) (l : List α) (i : Nat)
    (hi : i < l.length) (d : β) (da : α) :
    (l.enum.map f).getD i d = f (i, l.getD i da) := by
  have h1 : i < (l.enum.map f).length := by simpa using hi
  rw [List.getD_eq_getElem _ d h1, List.getElem_map, List.getElem_enum,
    List.getD_eq_getElem l da hi]

theorem parseError_suffix_ne_extra (pre : Str) :
    pre ++ "ParseError".data ≠ "ExtraSegments".data := by
  intro h
  have h1 := congrArg List.getLast? h
  rw [List.getLast?_append] at h1
  have h2 : (some 'r' : Option Char) = some 's' := h1
  exact absurd h2 (by decide)

theorem errorVariantFor_name_ne_extra (seg : RouteSegment) (i : Nat) :
    (errorVariantFor seg i).name ≠ "ExtraSegments".data := by
  cases seg with
  | Static lit => exact parseError_suffix_ne_extra ("StaticSegment".data ++ (Nat.repr i).data)
  | Dynamic n ty => exact parseError_suffix_ne_extra n
  | CatchAll n ty => exact parseError_suffix_ne_extra n

theorem error_name_eq (seg : RouteSegment) (idx : Nat) :
    seg.error_name idx =
      match seg.name with
      | none => static_segment_idx idx
      | some n => n ++ "ParseError".data := by
  cases seg <;> rfl

/-- C1: the claim says a `(...name)` token is stripped of its three-dot marker
and bound to exactly `name`. The code slices `segment[3..len - 1]`, which
starts inside the marker: on the variant `BlogPost ⦃ rest: String ⦄` and the
template `/(...rest)` the bound name is `.rest`, the declared field `rest` is
never found, and construction fails with the field-not-found error instead of
binding the catch-all. -/
theorem claim_C1_code_eval :
    boundName "(...rest)".data = ".rest".data ∧
    findField vRest.fields "rest".data = some ⟨some "rest".data, "String".data⟩ ∧
    parse_route_segments vRest "/(...rest)".data =
      Except.error ⟨fieldNotFoundMessage ".rest".data "BlogPost".data⟩ := by
  decide

/-- C2: the claim says a template with a catch-all followed by a further
element is rejected with the catch-all-must-be-last error. On the variant
`BlogPost ⦃ rest: String ⦄` and the template `/(...rest)/about` construction
does fail, but with the field-not-found error for the mis-sliced name `.rest`;
the dedicated catch-all-must-be-last check is never reached. -/
theorem claim_C2_code_eval :
    parse_route_segments vRest "/(...rest)/about".data =
      Except.error ⟨fieldNotFoundMessage ".rest".data "BlogPost".data⟩ ∧
    fieldNotFoundMessage ".rest".data "BlogPost".data ≠ catchAllNotLastMessage := by
  decide

/-- C4: the statement emitted for a `Static(literal)` descriptor at index
`idx` succeeds exactly when the observed segment equals the literal, and
otherwise fails with the payload-free inner case named by the index. -/
theorem claim_C4 (ε : Type) (lit : Str) (idx : Nat) (een eev ipe segment : Str) :
    RouteSegment.try_parse (RouteSegment.Static lit) idx een eev ipe =
      some (GeneratedLetParsed.staticCheck lit een eev ipe (static_segment_idx idx)) ∧
    (segment = lit →
      runStaticCheck ε lit een eev ipe (static_segment_idx idx) segment = Except.ok ()) ∧
    (segment ≠ lit →
      runStaticCheck ε lit een eev ipe (static_segment_idx idx) segment =
        Except.error ⟨een, eev, InnerErrorValue.unitCase ipe (static_segment_idx idx)⟩) := by
  refine ⟨rfl, ?_, ?_⟩ <;> intro h <;> simp [runStaticCheck, h]

theorem claim_C4_witness :
    "page".data ≠ "post".data ∧
    runStaticCheck Unit "post".data "E".data "V".data "I".data (static_segment_idx 0) "page".data =
      Except.error ⟨"E".data, "V".data, InnerErrorValue.unitCase "I".data (static_segment_idx 0)⟩ :=
  ⟨by decide, (claim_C4 Unit "post".data 0 "E".data "V".data "I".data "page".data).2.2 (by decide)⟩

/-- C5: the statement emitted for a `Dynamic(name, type)` descriptor parses
the observed segment through the type's `from_str` capability, returning the
typed value on success and, on failure, the error case named
`nameParseError` carrying the underlying parse error. -/
theorem claim_C5 (ε α : Type) (name ty : Str) (idx : Nat) (een eev ipe : Str)
    (from_str : Str → Except ε α) (segment : Str) :
    RouteSegment.try_parse (RouteSegment.Dynamic name ty) idx een eev ipe =
      some (GeneratedLetParsed.dynamicParse ty een eev ipe (name ++ "ParseError".data)) ∧
    (∀ v, from_str segment = Except.ok v →
      runDynamicParse from_str een eev ipe (name ++ "ParseError".data) segment = Except.ok v) ∧
    (∀ e, from_str segment = Except.error e →
      runDynamicParse from_str een eev ipe (name ++ "ParseError".data) segment =
        Except.error ⟨een, eev, InnerErrorValue.payloadCase ipe (name ++ "ParseError".data) e⟩) := by
  refine ⟨rfl, ?_, ?_⟩ <;> intro x h <;> simp [runDynamicParse, h]

theorem claim_C5_witness :
    parseU32ish "abc".data = Except.error "invalid digit found in string".data ∧
    runDynamicParse parseU32ish "E".data "V".data "I".data ("id".data ++ "ParseError".data) "abc".data =
      Except.error ⟨"E".data, "V".data,
        InnerErrorValue.payloadCase "I".data ("id".data ++ "ParseError".data)
          "invalid digit found in string".data⟩ :=
  ⟨by decide,
   (claim_C5 Str Nat "id".data "u32".data 0 "E".data "V".data "I".data parseU32ish
      "abc".data).2.2 "invalid digit found in string".data (by decide)⟩

/-- C10: `RouteSegment::try_parse` is `todo!()` (a panic, modelled as `none`)
on every catch-all descriptor, and total (returns an emitted statement) on
every static and dynamic descriptor. -/
theorem claim_C10 :
    (∀ name ty idx een eev ipe,
      RouteSegment.try_parse (RouteSegment.CatchAll name ty) idx een eev ipe = none) ∧
    (∀ lit idx een eev ipe,
      (RouteSegment.try_parse (RouteSegment.Static lit) idx een eev ipe).isSome = true) ∧
    (∀ name ty idx een eev ipe,
      (RouteSegment.try_parse (RouteSegment.Dynamic name ty) idx een eev ipe).isSome = true) :=
  ⟨fun _ _ _ _ _ _ => rfl, fun _ _ _ _ _ => rfl, fun _ _ _ _ _ _ => rfl⟩

/-- C6 counterexample: the claim says every template that does not start with
a slash is rejected, including the empty template. Splitting the empty string
on a slash yields one empty piece, so the leading-slash check passes and the
empty template is accepted with an empty segment list. -/
theorem claim_C6_counterexample : parse_route_segments vEmpty "".data = Except.ok [] := by
  decide

/-- C6 amended: every nonempty template whose first character is not a slash
is rejected with the must-start-with-slash error; the empty template is the
one exception and is accepted. -/
theorem claim_C6_amended (v : Variant) (route : Str) (c : Char) (cs : Str)
    (hroute : route = c :: cs) (hc : c ≠ '/') :
    parse_route_segments v route = Except.error ⟨routeStartMessage route⟩ := by
  subst hroute
  obtain ⟨h, t, hsplit⟩ : ∃ h t, splitOnChar '/' (c :: cs) = (c :: h) :: t := by
    cases htail : splitOnChar '/' cs with
    | nil => exact ⟨[], [], by simp [splitOnChar, hc, htail]⟩
    | cons h t => exact ⟨h, t, by simp [splitOnChar, hc, htail]⟩
  simp [parse_route_segments, hsplit]

theorem claim_C6_witness :
    parse_route_segments vEmpty "post".data = Except.error ⟨routeStartMessage "post".data⟩ :=
  claim_C6_amended vEmpty "post".data 'p' "ost".data (by decide) (by decide)

/-- C3: the generated per-route error enum consists of exactly one
`ExtraSegments` case carrying a `String`, plus one case per segment: a
payload-free case named `StaticSegmentiParseError` for the static segment at
index `i`, and a case named `nameParseError` carrying the bound type's
`FromStr` error for each dynamic or catch-all segment. -/
theorem claim_C3 (r : Route) :
    (Route.error_type r).variants.length = r.route_segments.length + 1 ∧
    (Route.error_type r).variants.getD 0 dummyVariantSpec =
      ⟨"ExtraSegments".data, PayloadKind.stringPayload⟩ ∧
    ((Route.error_type r).variants.countP fun v => v.name == "ExtraSegments".data) = 1 ∧
    (∀ i, i < r.route_segments.length →
      (Route.error_type r).variants.getD (i + 1) dummyVariantSpec =
        match r.route_segments.getD i dummySegment with
        | RouteSegment.Static _ =>
            (⟨"StaticSegment".data ++ (Nat.repr i).data ++ "ParseError".data,
              PayloadKind.noPayload⟩ : ErrorVariantSpec)
        | RouteSegment.Dynamic n ty => ⟨n ++ "ParseError".data, PayloadKind.fromStrErrOf ty⟩
        | RouteSegment.CatchAll n ty => ⟨n ++ "ParseError".data, PayloadKind.fromStrErrOf ty⟩) := by
  refine ⟨by simp [Route.error_type], rfl, ?_, ?_⟩
  · have htail :
        (r.route_segments.enum.map fun p => errorVariantFor p.2 p.1).countP
          (fun v => v.name == "ExtraSegments".data) = 0 := by
      rw [List.countP_eq_zero]
      intro v hv
      obtain ⟨⟨k, seg⟩, _, hveq⟩ := List.mem_map.mp hv
      rw [← hveq]
      simp only [beq_iff_eq]
      exact errorVariantFor_name_ne_extra seg k
    show List.countP _
        ((⟨"ExtraSegments".data, PayloadKind.stringPayload⟩ : ErrorVariantSpec) ::
          (r.route_segments.enum.map fun p => errorVariantFor p.2 p.1)) = 1
    rw [List.countP_cons, htail]
    simp
  · intro i hi
    have hv : (Route.error_type r).variants.getD (i + 1) dummyVariantSpec =
        errorVariantFor (r.route_segments.getD i dummySegment) i := by
      show ((⟨"ExtraSegments".data, PayloadKind.stringPayload⟩ : ErrorVariantSpec) ::
          (r.route_segments.enum.map fun p => errorVariantFor p.2 p.1)).getD (i + 1)
            dummyVariantSpec = _
      rw [List.getD_cons_succ]
      exact getD_enum_map_of_lt (fun p => errorVariantFor p.2 p.1) r.route_segments i hi
        dummyVariantSpec dummySegment
    rw [hv]
    cases hseg : r.route_segments.getD i dummySegment with
    | Static lit => simp [errorVariantFor, RouteSegment.error_name, static_segment_idx]
    | Dynamic n ty => simp [errorVariantFor, RouteSegment.error_name]
    | CatchAll n ty => simp [errorVariantFor, RouteSegment.error_name]

theorem claim_C3_witness :
    (Route.error_type rMix).variants.getD 1 dummyVariantSpec =
      ⟨"StaticSegment".data ++ (Nat.repr 0).data ++ "ParseError".data, PayloadKind.noPayload⟩ ∧
    (Route.error_type rMix).variants.getD 2 dummyVariantSpec =
      ⟨"id".data ++ "ParseError".data, PayloadKind.fromStrErrOf "u32".data⟩ :=
  ⟨(claim_C3 rMix).2.2.2 0 (by decide), (claim_C3 rMix).2.2.2 1 (by decide)⟩

/-- C7: a parenthesised token whose bound name matches no declared field of
the owning variant makes construction fail, with a message that names both
the missing field and the variant; field resolution is the linear search
`findField` by name equality. The token is placed after any run of
non-parenthesised elements, so that it is the first token that binds. -/
theorem claim_C7 (v : Variant) (route : Str) (pre : List Str) (segment : Str) (rest : List Str)
    (hsplit : splitOnChar '/' route = [] :: (pre ++ segment :: rest))
    (hpre : ∀ s ∈ pre, isParenToken s = false)
    (hseg : isParenToken segment = true)
    (hfield : findField v.fields (boundName segment) = none) :
    parse_route_segments v route =
      Except.error ⟨fieldNotFoundMessage (boundName segment) v.ident⟩ ∧
    fieldNotFoundMessage (boundName segment) v.ident =
      "Could not find a field with the name ".data ++ [sq] ++ boundName segment ++ [sq] ++
        " in the variant ".data ++ [sq] ++ v.ident ++ [sq] := by
  refine ⟨?_, rfl⟩
  have hloop : ∀ (p : List Str), (∀ s ∈ p, isParenToken s = false) →
      parseSegmentsLoop v (p ++ segment :: rest) =
        Except.error ⟨fieldNotFoundMessage (boundName segment) v.ident⟩ := by
    intro p
    induction p with
    | nil =>
      intro _
      simp [parseSegmentsLoop, hseg, hfield]
    | cons s p ih =>
      intro hp
      have hs : isParenToken s = false := hp s (List.mem_cons_self s p)
      have hrec := ih fun t ht => hp t (List.mem_cons_of_mem s ht)
      simp [parseSegmentsLoop, hs, hrec]
  simp [parse_route_segments, hsplit, hloop pre hpre]

theorem claim_C7_witness :
    parse_route_segments vBlog "/post/(missing)".data =
      Except.error ⟨fieldNotFoundMessage "missing".data "Blog".data⟩ :=
  ((claim_C7 vBlog "/post/(missing)".data ["post".data] "(missing)".data []
      (by decide) (by decide) (by decide) (by decide)).1).trans (by decide)

/-- C8 counterexample: on the route `/a/a` the static segments at indices 0
and 1 render the same failure text, so the human-readable rendering cannot
report the segment's position; only the case names differ by index. -/
theorem claim_C8_counterexample :
    ((Route.error_type rTwoStatic).display.getD 0 dummyDisplay) [] =
      ((Route.error_type rTwoStatic).display.getD 1 dummyDisplay) [] ∧
    ((Route.error_type rTwoStatic).variants.getD 1 dummyVariantSpec).name ≠
      ((Route.error_type rTwoStatic).variants.getD 2 dummyVariantSpec).name := by
  decide

/-- C8 amended: the rendering of a static segment's failure case reports the
expected literal only, in the fixed text pattern, while the segment's
position appears solely in the generated case name
`StaticSegmentiParseError`. -/
theorem claim_C8_amended (r : Route) (i : Nat) (lit : Str)
    (hi : i < r.route_segments.length)
    (hseg : r.route_segments.getD i dummySegment = RouteSegment.Static lit) :
    (∀ err, (Route.error_type r).display.getD i dummyDisplay err =
      "Static segment ".data ++ [sq] ++ lit ++ [sq] ++ " did not match".data) ∧
    ((Route.error_type r).variants.getD (i + 1) dummyVariantSpec).name =
      "StaticSegment".data ++ (Nat.repr i).data ++ "ParseError".data := by
  constructor
  · intro err
    have hd : (Route.error_type r).display.getD i dummyDisplay =
        displayArmFor (r.route_segments.getD i dummySegment) :=
      getD_map_of_lt displayArmFor r.route_segments i hi dummyDisplay dummySegment
    rw [hd, hseg]
    rfl
  · have hv : (Route.error_type r).variants.getD (i + 1) dummyVariantSpec =
        errorVariantFor (r.route_segments.getD i dummySegment) i := by
      show ((⟨"ExtraSegments".data, PayloadKind.stringPayload⟩ : ErrorVariantSpec) ::
          (r.route_segments.enum.map fun p => errorVariantFor p.2 p.1)).getD (i + 1)
            dummyVariantSpec = _
      rw [List.getD_cons_succ]
      exact getD_enum_map_of_lt (fun p => errorVariantFor p.2 p.1) r.route_segments i hi
        dummyVariantSpec dummySegment
    rw [hv, hseg]
    rfl

theorem claim_C8_witness :
    (Route.error_type rMix).display.getD 0 dummyDisplay [] =
      "Static segment ".data ++ [sq] ++ "post".data ++ [sq] ++ " did not match".data ∧
    ((Route.error_type rMix).variants.getD 1 dummyVariantSpec).name =
      "StaticSegment".data ++ (Nat.repr 0).data ++ "ParseError".data :=
  ⟨(claim_C8_amended rMix 0 "post".data (by decide) (by decide)).1 [],
   (claim_C8_amended rMix 0 "post".data (by decide) (by decide)).2⟩

/-- C9 counterexample: construction accepts the template `/(id)/(id)` on a
variant with a field `id`, producing two dynamic descriptors with the same
bound name, whose generated error-case names coincide. -/
theorem claim_C9_counterexample :
    parse_route_segments vBlog "/(id)/(id)".data =
      Except.ok [RouteSegment.Dynamic "id".data "u32".data,
        RouteSegment.Dynamic "id".data "u32".data] ∧
    RouteSegment.error_name (RouteSegment.Dynamic "id".data "u32".data) 0 =
      RouteSegment.error_name (RouteSegment.Dynamic "id".data "u32".data) 1 := by
  decide

/-- C9 amended: the generated error-case names of a Route are pairwise
distinct provided the bound names of its dynamic and catch-all descriptors
are pairwise distinct and none of them collides with an index-based static
name; construction itself does not enforce this, since a template may bind
the same field twice. -/
theorem claim_C9_amended (r : Route)
    (hdyn : ∀ i, i < r.route_segments.length → ∀ j, j < r.route_segments.length → i ≠ j →
      ((r.route_segments.getD i dummySegment).name).isSome = true →
      ((r.route_segments.getD j dummySegment).name).isSome = true →
      (r.route_segments.getD i dummySegment).name ≠ (r.route_segments.getD j dummySegment).name)
    (hstat : ∀ i, i < r.route_segments.length → ∀ k, k < r.route_segments.length →
      ((r.route_segments.getD i dummySegment).name.getD []) ++ "ParseError".data ≠
        static_segment_idx k) :
    ∀ i, i < r.route_segments.length → ∀ j, j < r.route_segments.length → i ≠ j →
      (r.route_segments.getD i dummySegment).error_name i ≠
        (r.route_segments.getD j dummySegment).error_name j := by
  intro i hi j hj hij heq
  rw [error_name_eq _ i, error_name_eq _ j] at heq
  cases hni : (r.route_segments.getD i dummySegment).name with
  | none =>
    cases hnj : (r.route_segments.getD j dummySegment).name with
    | none =>
      simp only [hni, hnj] at heq
      exact hij (static_segment_idx_inj heq)
    | some b =>
      simp only [hni, hnj] at heq
      have hs := hstat j hj i hi
      rw [hnj] at hs
      exact hs heq.symm
  | some a =>
    cases hnj : (r.route_segments.getD j dummySegment).name with
    | none =>
      simp only [hni, hnj] at heq
      have hs := hstat i hi j hj
      rw [hni] at hs
      exact hs heq
    | some b =>
      simp only [hni, hnj] at heq
      have hne := hdyn i hi j hj hij (by rw [hni]; rfl) (by rw [hnj]; rfl)
      rw [hni, hnj] at hne
      exact hne (congrArg some (List.append_cancel_right heq))

theorem claim_C9_witness :
    (rTwoDyn.route_segments.getD 0 dummySegment).error_name 0 ≠
      (rTwoDyn.route_segments.getD 1 dummySegment).error_name 1 :=
  claim_C9_amended rTwoDyn
    (by
      intro i hi j hj hij h1 h2
      have hi2 : i < 2 := hi
      have hj2 : j < 2 := hj
      interval_cases i <;> interval_cases j <;> first | exact absurd rfl hij | decide)
    (by
      intro i hi k hk
      have hi2 : i < 2 := hi
      have hk2 : k < 2 := hk
      interval_cases i <;> interval_cases k <;> decide)
    0 (by decide) 1 (by decide) (by decide)

end DioxusRouter
